import Mathlib

/-!
Shallow embedding of the `inkling` story-follow engine's line content model,
address validation pass, node builders and error taxonomy, together with
theorems settling the specification claims about them.

Definitions are translated from the Rust sources (`src/line/line.rs`,
`src/line/choice.rs`, `src/node/node.rs`, `src/error/runtime/internal.rs`).
Types whose defining source file is not part of the provided sources
(`Address`, `Condition`, `Expression`, `Alternative`, `InvalidAddressError`,
the user-facing `InklingError`, and the old data model's `Line`/`ChoiceData`)
are modelled from the specification and marked as such in their doc comments.
-/

namespace Inkling

/-- Modelled from the spec: `error/utils.rs` is missing from the sources.
Information about the origin of content: "origin metadata (source line index)". -/
structure MetaData where
  line_index : Nat
deriving DecidableEq, Repr

/-- Modelled from the spec: the `Address` source file is missing. A validated
address is either a location `(knot, stitch)` whose components "are guaranteed
to name an existing node", or the name of an entry in the variable store. -/
inductive AddressKind where
  | location (knot : String) (stitch : String)
  | globalVariable (name : String)
deriving DecidableEq, Repr

/-- Modelled from the spec: the `Address` source file is missing. A tagged
value: `Raw(string)` is an unresolved symbolic name from source, and
`Validated(kind)` is the resolved form established by the validator. -/
inductive Address where
  | raw (target : String)
  | validated (kind : AddressKind)
deriving DecidableEq, Repr

/-- Modelled from the spec: `error/parse/address.rs` is missing. Resolution
failure kinds for an address that cannot be validated. -/
inductive InvalidAddressErrorKind where
  | unknownAddress (name : String)
  | usedVariableAsLocation (name : String)
  | usedLocationAsVariable (name : String)
  | ambiguousNameClash (name : String)
deriving DecidableEq, Repr

/-- Modelled from the spec: `error/parse/address.rs` is missing. The
aggregated load-time error `InvalidAddressError{kind, source_line}`. -/
structure InvalidAddressError where
  kind : InvalidAddressErrorKind
  meta_data : MetaData
deriving DecidableEq, Repr

/-- Modelled from the spec: `line/variable.rs` is missing. A tagged `Variable`
value: `Int(i64)`, `Float(f64)`, `String`, `Bool`, `Divert(Address)`. The
`f64` payload is represented here by its bit pattern as a natural number;
no claim depends on float arithmetic. -/
inductive Variable where
  | int (value : Int)
  | float (bits : Nat)
  | string (content : String)
  | bool (value : Bool)
  | divert (address : Address)
deriving DecidableEq, Repr

/-- Comparison operator of a condition: `== != < <= > >=`. -/
inductive Comparison where
  | equalTo
  | notEqualTo
  | lessThan
  | lessThanOrEqualTo
  | greaterThan
  | greaterThanOrEqualTo
deriving DecidableEq, Repr

/-- Modelled from the spec: `line/condition.rs` is missing. A condition is
"a predicate tree over: `NumVisits(Address) <op> integer`,
`Variable(name) <op> value`, `True`, boolean AND/OR/NOT combinators". -/
inductive Condition where
  | numVisits (address : Address) (cmp : Comparison) (value : Int)
  | variableCmp (address : Address) (cmp : Comparison) (value : Variable)
  | alwaysTrue
  | and (lhs : Condition) (rhs : Condition)
  | or (lhs : Condition) (rhs : Condition)
  | negated (inner : Condition)
deriving DecidableEq, Repr

/-- Arithmetic operator of an expression: `+ - * / %`. -/
inductive ArithOperator where
  | add
  | sub
  | mul
  | div
  | rem
deriving DecidableEq, Repr

/-- Modelled from the spec: `line/expression.rs` is missing. Expressions are
"trees of: literal variable, variable reference by name, visit-count query
(`NumVisits(address)`), arithmetic ops". -/
inductive Expression where
  | literal (value : Variable)
  | reference (address : Address)
  | numVisits (address : Address)
  | arith (op : ArithOperator) (lhs : Expression) (rhs : Expression)
deriving DecidableEq, Repr

/-- Modelled from the spec: the validator carries "a read-only view of all
known knots, stitches, and variable names". Each knot is paired with the
names of its stitches (the default stitch included). -/
structure ValidateAddressData where
  knots : List (String × List String)
  variable_names : List String
deriving DecidableEq, Repr

/-- Name of the default stitch every knot contains. The concrete name is
immaterial to every claim; it only has to be a fixed identifier. -/
def rootStitchName : String := "$ROOT$"

/-- Knot of the current location address the validator carries. Validation is
always performed relative to a validated location. -/
def getCurrentKnot : Address → String
  | .validated (.location knot _) => knot
  | _ => ""

/-- Whether `knot` is a known knot containing a stitch named `stitch`. -/
def knotHasStitch (data : ValidateAddressData) (knot : String) (stitch : String) : Bool :=
  data.knots.any fun entry => entry.1 == knot && entry.2.contains stitch

/-- Whether `name` names a known knot. -/
def isKnotName (data : ValidateAddressData) (name : String) : Bool :=
  data.knots.any fun entry => entry.1 == name

/-- Whether `name` names a known global variable. -/
def isVariableName (data : ValidateAddressData) (name : String) : Bool :=
  data.variable_names.contains name

/-- Split a list of characters at every dot character. -/
def splitAtDots : List Char → List (List Char)
  | [] => [[]]
  | c :: rest =>
      let parts := splitAtDots rest
      if c = '.' then [] :: parts
      else
        match parts with
        | [] => [[c]]
        | seg :: segs => (c :: seg) :: segs

/-- Dot-separated components of a raw address target. -/
def nameParts (target : String) : List String :=
  (splitAtDots target.toList).map fun cs => String.mk cs

/-- Modelled from the spec (§4.1): resolve a raw target string. A dotted name
`knot.stitch` is explicit; a single name resolves to a stitch of the current
knot if one exists there, otherwise to the named knot's default stitch,
otherwise to a global variable of that name. -/
def resolveRawTarget (target : String) (currentKnot : String)
    (data : ValidateAddressData) : Option AddressKind :=
  match nameParts target with
  | [knot, stitch] =>
      if knotHasStitch data knot stitch then some (.location knot stitch) else none
  | [name] =>
      if knotHasStitch data currentKnot name then some (.location currentKnot name)
      else if isKnotName data name then some (.location name rootStitchName)
      else if isVariableName data name then some (.globalVariable name)
      else none
  | _ => none

/-- Modelled from the spec: the `Address` validation source is missing. "For
each `Raw` address it either substitutes the `Validated` form or appends an
`InvalidAddressError{kind, source_line}` to an error accumulator." An already
validated address is left untouched. -/
def Address.validate (a : Address) (errors : List InvalidAddressError)
    (meta_data : MetaData) (current_address : Address)
    (data : ValidateAddressData) : Address × List InvalidAddressError :=
  match a with
  | .raw target =>
      match resolveRawTarget target (getCurrentKnot current_address) data with
      | some kind => (.validated kind, errors)
      | none =>
          (.raw target,
            errors ++ [{ kind := .unknownAddress target, meta_data := meta_data }])
  | .validated kind => (.validated kind, errors)

/-- Modelled from the spec: a `Divert` variable value carries an address that
the validator resolves like any other raw address. -/
def Variable.validate (v : Variable) (errors : List InvalidAddressError)
    (meta_data : MetaData) (current_address : Address)
    (data : ValidateAddressData) : Variable × List InvalidAddressError :=
  match v with
  | .divert address =>
      let (a2, e) := address.validate errors meta_data current_address data
      (.divert a2, e)
  | v => (v, errors)

/-- Modelled from the spec: `line/condition.rs` is missing. The validator
"recursively descends into every ... condition", resolving each address. -/
def Condition.validate (c : Condition) (errors : List InvalidAddressError)
    (meta_data : MetaData) (current_address : Address)
    (data : ValidateAddressData) : Condition × List InvalidAddressError :=
  match c with
  | .numVisits address cmp value =>
      let (a2, e) := address.validate errors meta_data current_address data
      (.numVisits a2 cmp value, e)
  | .variableCmp address cmp value =>
      let (a2, e) := address.validate errors meta_data current_address data
      let (v2, e2) := value.validate e meta_data current_address data
      (.variableCmp a2 cmp v2, e2)
  | .alwaysTrue => (.alwaysTrue, errors)
  | .and lhs rhs =>
      let (l2, e) := lhs.validate errors meta_data current_address data
      let (r2, e2) := rhs.validate e meta_data current_address data
      (.and l2 r2, e2)
  | .or lhs rhs =>
      let (l2, e) := lhs.validate errors meta_data current_address data
      let (r2, e2) := rhs.validate e meta_data current_address data
      (.or l2 r2, e2)
  | .negated inner =>
      let (c2, e) := inner.validate errors meta_data current_address data
      (.negated c2, e)

/-- Modelled from the spec: `line/expression.rs` is missing. The validator
"recursively descends into every ... expression", resolving each address. -/
def Expression.validate (x : Expression) (errors : List InvalidAddressError)
    (meta_data : MetaData) (current_address : Address)
    (data : ValidateAddressData) : Expression × List InvalidAddressError :=
  match x with
  | .literal value =>
      let (v2, e) := value.validate errors meta_data current_address data
      (.literal v2, e)
  | .reference address =>
      let (a2, e) := address.validate errors meta_data current_address data
      (.reference a2, e)
  | .numVisits address =>
      let (a2, e) := address.validate errors meta_data current_address data
      (.numVisits a2, e)
  | .arith op lhs rhs =>
      let (l2, e) := lhs.validate errors meta_data current_address data
      let (r2, e2) := rhs.validate e meta_data current_address data
      (.arith op l2 r2, e2)

/-- Modelled from the spec: `line/alternative.rs` is missing. The kind of an
alternative: `Sequence`, `OnceOnly`, `Cycle` or `Shuffle`. -/
inductive AlternativeKind where
  | sequence
  | onceOnly
  | cycle
  | shuffle
deriving DecidableEq, Repr

mutual

/-- Items in each chunk of line content (enum `Content` in `src/line/line.rs`):
an alternative, a divert to an address, null content, an expression,
a nested `LineChunk`, or a string of regular text. -/
inductive Content where
  | alternative (alt : Alternative)
  | divert (address : Address)
  | empty
  | expression (expr : Expression)
  | nested (chunk : LineChunk)
  | text (s : String)

/-- A chunk of line content (struct `LineChunk` in `src/line/line.rs`): an
optional condition, the items processed when the condition is absent or true,
and the items processed when a condition is set and false. -/
inductive LineChunk where
  | mk (condition : Option Condition) (items : List Content)
      (else_items : List Content)

/-- Modelled from the spec: `line/alternative.rs` is missing. An alternative
is a kind, an internal counter, and a list of sub-chunks. -/
inductive Alternative where
  | mk (kind : AlternativeKind) (current_index : Option Nat)
      (items : List LineChunk)

end

/-- Condition field of a line chunk. -/
def LineChunk.condition : LineChunk → Option Condition
  | .mk c _ _ => c

/-- Items field of a line chunk. -/
def LineChunk.items : LineChunk → List Content
  | .mk _ i _ => i

/-- Else-items field of a line chunk. -/
def LineChunk.else_items : LineChunk → List Content
  | .mk _ _ e => e

/-- Kind field of an alternative. -/
def Alternative.kind : Alternative → AlternativeKind
  | .mk k _ _ => k

/-- Sub-chunk items of an alternative. -/
def Alternative.items : Alternative → List LineChunk
  | .mk _ _ i => i

/-- A single line of Ink content (struct `InternalLine` in `src/line/line.rs`):
a root chunk, tags, glue flags and origin metadata. -/
structure InternalLine where
  chunk : LineChunk
  tags : List String
  glue_begin : Bool
  glue_end : Bool
  meta_data : MetaData

/-- Embedding of `InternalLine::from_chunk` (src/line/line.rs): no tags, no
glue, line index 0. -/
def InternalLine.from_chunk (chunk : LineChunk) : InternalLine :=
  { chunk := chunk
    tags := []
    glue_begin := false
    glue_end := false
    meta_data := { line_index := 0 } }

/-- Embedding of `InternalLine::text` (src/line/line.rs): walk the chunk's
direct items in order, pushing the string of every `Content::Text` item onto
a buffer. -/
def InternalLine.text (line : InternalLine) : String :=
  line.chunk.items.foldl
    (fun buffer item =>
      match item with
      | Content.text s => buffer ++ s
      | _ => buffer)
    ""

mutual

/-- Embedding of `impl ValidateAddresses for Content` (src/line/line.rs lines
161-180): alternatives, diverts, expressions and nested chunks are descended
into; `Empty` and `Text` content is left untouched. -/
def Content.validate (c : Content) (errors : List InvalidAddressError)
    (meta_data : MetaData) (current_address : Address)
    (data : ValidateAddressData) : Content × List InvalidAddressError :=
  match c with
  | .alternative alt =>
      let (alt2, e) := Alternative.validate alt errors meta_data current_address data
      (.alternative alt2, e)
  | .divert address =>
      let (a2, e) := address.validate errors meta_data current_address data
      (.divert a2, e)
  | .empty => (.empty, errors)
  | .expression expr =>
      let (x2, e) := expr.validate errors meta_data current_address data
      (.expression x2, e)
  | .nested chunk =>
      let (c2, e) := LineChunk.validate chunk errors meta_data current_address data
      (.nested c2, e)
  | .text s => (.text s, errors)

/-- Validation of a list of content items, in order, threading the error
accumulator (the `iter_mut().for_each` loop of `LineChunk::validate`). -/
def validateContentItems (items : List Content) (errors : List InvalidAddressError)
    (meta_data : MetaData) (current_address : Address)
    (data : ValidateAddressData) : List Content × List InvalidAddressError :=
  match items with
  | [] => ([], errors)
  | item :: rest =>
      let (i2, e) := Content.validate item errors meta_data current_address data
      let (r2, e2) := validateContentItems rest e meta_data current_address data
      (i2 :: r2, e2)

/-- Embedding of `impl ValidateAddresses for LineChunk` (src/line/line.rs lines
138-153): the condition is validated when present, then every item of `items`
is validated in order. The `else_items` sequence is not visited. -/
def LineChunk.validate (chunk : LineChunk) (errors : List InvalidAddressError)
    (meta_data : MetaData) (current_address : Address)
    (data : ValidateAddressData) : LineChunk × List InvalidAddressError :=
  match chunk with
  | .mk condition items else_items =>
      let (cond2, e0) :=
        match condition with
        | some c =>
            let (c2, e) := c.validate errors meta_data current_address data
            (some c2, e)
        | none => (none, errors)
      let (items2, e1) := validateContentItems items e0 meta_data current_address data
      (.mk cond2 items2 else_items, e1)

/-- Validation of a list of sub-chunks, in order, threading the error
accumulator. -/
def validateChunkItems (chunks : List LineChunk) (errors : List InvalidAddressError)
    (meta_data : MetaData) (current_address : Address)
    (data : ValidateAddressData) : List LineChunk × List InvalidAddressError :=
  match chunks with
  | [] => ([], errors)
  | chunk :: rest =>
      let (c2, e) := LineChunk.validate chunk errors meta_data current_address data
      let (r2, e2) := validateChunkItems rest e meta_data current_address data
      (c2 :: r2, e2)

/-- Modelled from the spec: `line/alternative.rs` is missing. The validator
"recursively descends into every ... alternative": each sub-chunk is
validated in order. -/
def Alternative.validate (alt : Alternative) (errors : List InvalidAddressError)
    (meta_data : MetaData) (current_address : Address)
    (data : ValidateAddressData) : Alternative × List InvalidAddressError :=
  match alt with
  | .mk kind current_index items =>
      let (items2, e) := validateChunkItems items errors meta_data current_address data
      (.mk kind current_index items2, e)

end

/-- Embedding of `impl ValidateAddresses for InternalLine` (src/line/line.rs
lines 120-131): the caller-supplied metadata argument is ignored and the
line's own `meta_data` is forwarded to the chunk validation. -/
def InternalLine.validate (line : InternalLine) (errors : List InvalidAddressError)
    (_ : MetaData) (current_address : Address)
    (data : ValidateAddressData) : InternalLine × List InvalidAddressError :=
  let (chunk2, e) := line.chunk.validate errors line.meta_data current_address data
  ({ line with chunk := chunk2 }, e)

/-- Whether an address is in validated form. -/
def Address.isValidated : Address → Bool
  | .raw _ => false
  | .validated _ => true

/-- Whether every address of a variable value is validated. -/
def Variable.noRaw : Variable → Bool
  | .divert address => address.isValidated
  | _ => true

/-- Whether every address of a condition tree is validated. -/
def Condition.noRaw : Condition → Bool
  | .numVisits address _ _ => address.isValidated
  | .variableCmp address _ value => address.isValidated && value.noRaw
  | .alwaysTrue => true
  | .and lhs rhs => lhs.noRaw && rhs.noRaw
  | .or lhs rhs => lhs.noRaw && rhs.noRaw
  | .negated inner => inner.noRaw

/-- Whether every address of an expression tree is validated. -/
def Expression.noRaw : Expression → Bool
  | .literal value => value.noRaw
  | .reference address => address.isValidated
  | .numVisits address => address.isValidated
  | .arith _ lhs rhs => lhs.noRaw && rhs.noRaw

/-- Addresses of a variable value. -/
def Variable.addresses : Variable → List Address
  | .divert a => [a]
  | _ => []

/-- Addresses of a condition tree, in traversal order. -/
def Condition.addresses : Condition → List Address
  | .numVisits address _ _ => [address]
  | .variableCmp address _ value => address :: value.addresses
  | .alwaysTrue => []
  | .and lhs rhs => lhs.addresses ++ rhs.addresses
  | .or lhs rhs => lhs.addresses ++ rhs.addresses
  | .negated inner => inner.addresses

/-- Addresses of an optional condition, in traversal order. -/
def conditionAddresses : Option Condition → List Address
  | none => []
  | some c => c.addresses

/-- Addresses of an expression tree, in traversal order. -/
def Expression.addresses : Expression → List Address
  | .literal value => value.addresses
  | .reference address => [address]
  | .numVisits address => [address]
  | .arith _ lhs rhs => lhs.addresses ++ rhs.addresses

mutual

/-- Whether every address of a content item, at any depth and in any position
(conditions and else-items of nested chunks included), is validated. -/
def Content.noRaw : Content → Bool
  | .alternative alt => Alternative.noRaw alt
  | .divert address => address.isValidated
  | .empty => true
  | .expression expr => expr.noRaw
  | .nested chunk => LineChunk.noRaw chunk
  | .text _ => true

/-- Whether every address of every listed content item is validated. -/
def contentItemsNoRaw : List Content → Bool
  | [] => true
  | item :: rest => Content.noRaw item && contentItemsNoRaw rest

/-- Whether every address of a chunk — in its condition, its items and its
else-items — is validated. -/
def LineChunk.noRaw : LineChunk → Bool
  | .mk condition items else_items =>
      (match condition with
       | some c => c.noRaw
       | none => true)
        && contentItemsNoRaw items && contentItemsNoRaw else_items

/-- Whether every address of every listed sub-chunk is validated. -/
def chunkItemsNoRaw : List LineChunk → Bool
  | [] => true
  | chunk :: rest => LineChunk.noRaw chunk && chunkItemsNoRaw rest

/-- Whether every address of an alternative is validated. -/
def Alternative.noRaw : Alternative → Bool
  | .mk _ _ items => chunkItemsNoRaw items

end

mutual

/-- Addresses a content item exposes to the validation pass, in traversal
order. Mirrors which positions `Content::validate` descends into. -/
def Content.visitedAddresses : Content → List Address
  | .alternative alt => Alternative.visitedAddresses alt
  | .divert address => [address]
  | .empty => []
  | .expression expr => expr.addresses
  | .nested chunk => LineChunk.visitedAddresses chunk
  | .text _ => []

/-- Addresses the listed content items expose to the validation pass. -/
def contentItemsVisitedAddresses : List Content → List Address
  | [] => []
  | item :: rest =>
      Content.visitedAddresses item ++ contentItemsVisitedAddresses rest

/-- Addresses a chunk exposes to the validation pass: those of its condition
followed by those of its items. Its else-items are not visited. -/
def LineChunk.visitedAddresses : LineChunk → List Address
  | .mk condition items _ =>
      conditionAddresses condition ++ contentItemsVisitedAddresses items

/-- Addresses the listed sub-chunks expose to the validation pass. -/
def chunkItemsVisitedAddresses : List LineChunk → List Address
  | [] => []
  | chunk :: rest =>
      LineChunk.visitedAddresses chunk ++ chunkItemsVisitedAddresses rest

/-- Addresses an alternative exposes to the validation pass. -/
def Alternative.visitedAddresses : Alternative → List Address
  | .mk _ _ items => chunkItemsVisitedAddresses items

end

/-- Whether validating this address fails: it is raw and its target does not
resolve against the current location and the known names. -/
def Address.fails (a : Address) (current_address : Address)
    (data : ValidateAddressData) : Bool :=
  match a with
  | .raw target => (resolveRawTarget target (getCurrentKnot current_address) data).isNone
  | .validated _ => false

/-- Number of listed addresses whose validation fails. -/
def countFailing (addrs : List Address) (current_address : Address)
    (data : ValidateAddressData) : Nat :=
  addrs.countP fun a => a.fails current_address data

/-- Modelled from the spec: the `node` module's stack type is missing. The
traversal stack is "an ordered sequence of non-negative integers". -/
abbrev Stack := List Nat

/-- Modelled from the spec: the `follow` module is missing. Each visible
choice entry carries the branch's original index, its rendered selection
text, and its tags. -/
structure ChoiceInfo where
  index : Nat
  text : String
  tags : List String
deriving DecidableEq, Repr

/-- Modelled from the spec (§7): the user-facing runtime error taxonomy,
"fail-fast to the caller". The payloads carry the names or indices the spec
mentions for each variant. -/
inductive InklingError where
  | invalidChoice (selection : Nat)
  | outOfBoundsChoice (selection : Nat)
  | resumeWithoutChoice
  | madeChoiceWithoutChoice
  | unknownVariable (name : String)
  | variableKindMismatch (name : String)
  | divisionByZero
  | invalidAddress (target : String)
deriving DecidableEq, Repr

/-- Errors related to the stack of knots, stitches and choices (enum
`StackError` in `src/error/runtime/internal.rs`). -/
inductive StackError where
  | noStack
  | badAddress (address : Address)
  | noLastChoices
  | noRootKnot (knot_name : String)
deriving DecidableEq, Repr

/-- Variant of a process error (enum `ProcessErrorKind` in
`src/error/runtime/internal.rs`): an alternative accessed an item with an
out-of-bounds index, or an `InklingError` was encountered while processing. -/
inductive ProcessErrorKind where
  | invalidAlternativeIndex
  | inklingError (err : InklingError)
deriving DecidableEq, Repr

/-- Error from processing content into its final format (struct
`ProcessError` in `src/error/runtime/internal.rs`). -/
structure ProcessError where
  kind : ProcessErrorKind
deriving DecidableEq, Repr

/-- The current node tree stack is incorrect (enum `IncorrectNodeStackError`
in `src/error/runtime/internal.rs`). -/
inductive IncorrectNodeStackError where
  | emptyStack
  | expectedBranchingPoint (stack_index : Nat) (stack : Stack)
  | missingBranchIndex (stack_index : Nat) (stack : Stack)
  | outOfBounds (stack_index : Nat) (stack : Stack) (num_items : Nat)
deriving DecidableEq, Repr

/-- Internal errors from the engine (enum `InternalError` in
`src/error/runtime/internal.rs`): errors that "should not possibly occur"
if the library is well written, kept apart from the user-facing
`InklingError` and parse error structures. -/
inductive InternalError where
  | badKnotStack (err : StackError)
  | couldNotProcess (err : ProcessError)
  | incorrectChoiceIndex (selection : Nat) (available_choices : List ChoiceInfo)
      (stack_index : Nat) (stack : Stack)
  | incorrectNodeStack (err : IncorrectNodeStackError)
  | useOfVariableAsLocation (name : String)
  | useOfUnvalidatedAddress (address : Address)
deriving DecidableEq, Repr

/-- Modelled from the spec: the follow engine consumes only validated
location addresses; asking a `Raw` address for its location is exactly the
`UseOfUnvalidatedAddress` internal error branch, and asking a validated
variable address is the `UseOfVariableAsLocation` branch. -/
def Address.getLocation : Address → Except InternalError (String × String)
  | .validated (.location knot stitch) => .ok (knot, stitch)
  | .validated (.globalVariable name) => .error (.useOfVariableAsLocation name)
  | .raw target => .error (.useOfUnvalidatedAddress (.raw target))

/-- One representative internal-error value per logically-unreachable engine
bug condition named by the spec: following with an empty stack, a stack entry
that disagrees with the graph shape (expected branching point, missing branch
index, out-of-bounds index), use of an unvalidated `Raw` address, and an
out-of-bounds alternative index. -/
def engineBugConditions : List InternalError :=
  [ .incorrectNodeStack .emptyStack,
    .incorrectNodeStack (.expectedBranchingPoint 0 [0]),
    .incorrectNodeStack (.missingBranchIndex 0 [0]),
    .incorrectNodeStack (.outOfBounds 0 [0] 0),
    .useOfUnvalidatedAddress (.raw "target"),
    .couldNotProcess { kind := .invalidAlternativeIndex } ]

/-- Discriminator a host can apply to a reported error: content errors arrive
as the user-facing `InklingError` type, engine bugs as the separate
`InternalError` type. -/
def isEngineBug : InklingError ⊕ InternalError → Bool
  | .inl _ => false
  | .inr _ => true

/-- Builder for a `LineChunk` (struct `LineChunkBuilder` in
`src/line/line.rs`): it only accumulates items. -/
structure LineChunkBuilder where
  items : List Content

/-- Embedding of `LineChunkBuilder::new`: an empty builder. -/
def LineChunkBuilder.new : LineChunkBuilder :=
  { items := [] }

/-- Embedding of `LineChunkBuilder::build` (src/line/line.rs lines 246-256):
if no items were added a `Content::Empty` item is pushed, and the chunk is
constructed with no condition and no else-items. -/
def LineChunkBuilder.build (b : LineChunkBuilder) : LineChunk :=
  let items := if b.items.isEmpty then b.items ++ [Content.empty] else b.items
  .mk none items []

/-- Embedding of `LineChunkBuilder::with_item`: push one item. -/
def LineChunkBuilder.with_item (b : LineChunkBuilder) (item : Content) :
    LineChunkBuilder :=
  { items := b.items ++ [item] }

/-- Embedding of `LineChunkBuilder::with_alternative`. -/
def LineChunkBuilder.with_alternative (b : LineChunkBuilder) (alt : Alternative) :
    LineChunkBuilder :=
  b.with_item (.alternative alt)

/-- Embedding of `LineChunkBuilder::with_divert`: diverts enter the builder
as raw addresses. -/
def LineChunkBuilder.with_divert (b : LineChunkBuilder) (address : String) :
    LineChunkBuilder :=
  b.with_item (.divert (.raw address))

/-- Embedding of `LineChunkBuilder::with_text`. -/
def LineChunkBuilder.with_text (b : LineChunkBuilder) (text : String) :
    LineChunkBuilder :=
  b.with_item (.text text)

/-- Embedding of `LineChunkBuilder::from_string`. -/
def LineChunkBuilder.from_string (line : String) : LineChunkBuilder :=
  LineChunkBuilder.new.with_text line

/-- Embedding of `InternalLine::from_string` (src/line/line.rs). -/
def InternalLine.from_string (line : String) : InternalLine :=
  InternalLine.from_chunk (LineChunkBuilder.from_string line).build

/-- A single choice in a set presented to the user (struct `InternalChoice`
in `src/line/choice.rs`). -/
structure InternalChoice where
  selection_text : InternalLine
  display_text : InternalLine
  conditions : List Condition
  is_sticky : Bool
  is_fallback : Bool

/-- Builder for an `InternalChoice` (struct `InternalChoiceBuilder` in
`src/line/choice.rs`). -/
structure InternalChoiceBuilder where
  selection_text : InternalLine
  display_text : InternalLine
  conditions : List Condition
  is_fallback : Bool
  is_sticky : Bool
  tags : Option (List String)

/-- Embedding of `InternalChoiceBuilder::from_line` (src/line/choice.rs lines
50-59): the given line becomes both the selection text and the display text;
no conditions, both flags false, no tags. -/
def InternalChoiceBuilder.from_line (line : InternalLine) : InternalChoiceBuilder :=
  { selection_text := line
    display_text := line
    conditions := []
    is_fallback := false
    is_sticky := false
    tags := none }

/-- Embedding of `InternalChoiceBuilder::build` (src/line/choice.rs lines
65-78): if tags have been set they are written into both lines, then the
choice is assembled from the builder's fields. -/
def InternalChoiceBuilder.build (b : InternalChoiceBuilder) : InternalChoice :=
  let selection_text :=
    match b.tags with
    | some tags => { b.selection_text with tags := tags }
    | none => b.selection_text
  let display_text :=
    match b.tags with
    | some tags => { b.display_text with tags := tags }
    | none => b.display_text
  { selection_text := selection_text
    display_text := display_text
    conditions := b.conditions
    is_sticky := b.is_sticky
    is_fallback := b.is_fallback }

/-- Embedding of `InternalChoiceBuilder::set_conditions`. -/
def InternalChoiceBuilder.set_conditions (b : InternalChoiceBuilder)
    (conditions : List Condition) : InternalChoiceBuilder :=
  { b with conditions := conditions }

/-- Embedding of `InternalChoiceBuilder::set_display_text`. -/
def InternalChoiceBuilder.set_display_text (b : InternalChoiceBuilder)
    (line : InternalLine) : InternalChoiceBuilder :=
  { b with display_text := line }

/-- Embedding of `InternalChoiceBuilder::set_is_fallback`. -/
def InternalChoiceBuilder.set_is_fallback (b : InternalChoiceBuilder)
    (fallback : Bool) : InternalChoiceBuilder :=
  { b with is_fallback := fallback }

/-- Embedding of `InternalChoiceBuilder::set_selection_text`. -/
def InternalChoiceBuilder.set_selection_text (b : InternalChoiceBuilder)
    (line : InternalLine) : InternalChoiceBuilder :=
  { b with selection_text := line }

/-- Embedding of `InternalChoiceBuilder::with_condition`: push one
condition. -/
def InternalChoiceBuilder.with_condition (b : InternalChoiceBuilder)
    (condition : Condition) : InternalChoiceBuilder :=
  { b with conditions := b.conditions ++ [condition] }

/-- Embedding of `InternalChoiceBuilder::with_display_text`. -/
def InternalChoiceBuilder.with_display_text (b : InternalChoiceBuilder)
    (line : InternalLine) : InternalChoiceBuilder :=
  b.set_display_text line

/-- Embedding of `InternalChoiceBuilder::with_tags`: replace the optional tag
list by the given one. -/
def InternalChoiceBuilder.with_tags (b : InternalChoiceBuilder)
    (tags : List String) : InternalChoiceBuilder :=
  { b with tags := some tags }

/-- Modelled from the spec: the old data model's `Line` (its source file is
one of the "historical artifacts" and is missing); for the node builders only
its identity matters. -/
structure Line where
  text : String
deriving DecidableEq, Repr

/-- Modelled from the spec: the old data model's `ChoiceData`, carrying the
line of the choice that spawns a branch. -/
structure ChoiceData where
  line : Line
deriving DecidableEq, Repr

/-- Modelled from the spec: the old data model's `LineBuilder`, holding an
optional line to wrap. -/
structure LineBuilder where
  line : Option Line

/-- Modelled from the spec: an empty `LineBuilder`. -/
def LineBuilder.new : LineBuilder :=
  { line := none }

/-- Modelled from the spec: `LineBuilder::with_line` stores the given line. -/
def LineBuilder.with_line (b : LineBuilder) (line : Line) : LineBuilder :=
  { b with line := some line }

/-- Modelled from the spec: `LineBuilder::build` returns the stored line, or
an empty one when nothing was stored. -/
def LineBuilder.build (b : LineBuilder) : Line :=
  match b.line with
  | some line => line
  | none => { text := "" }

mutual

/-- Item of a node (enum `NodeItem` in `src/node/node.rs`): a line, or a
branching choice holding an ordered set of branches. -/
inductive NodeItem where
  | line (l : Line)
  | branchingChoice (branches : List Branch)

/-- Branch from a set of choices (struct `Branch` in `src/node/node.rs`): the
choice data leading to it, its items and its visit counter. -/
inductive Branch where
  | mk (choice : ChoiceData) (items : List NodeItem) (num_visited : Nat)

end

/-- Choice field of a branch. -/
def Branch.choice : Branch → ChoiceData
  | .mk c _ _ => c

/-- Items field of a branch. -/
def Branch.items : Branch → List NodeItem
  | .mk _ i _ => i

/-- Visit counter of a branch. -/
def Branch.num_visited : Branch → Nat
  | .mk _ _ n => n

/-- Root of a single stitch (struct `RootNode` in `src/node/node.rs`). -/
structure RootNode where
  items : List NodeItem
  num_visited : Nat

/-- Builder for a `RootNode` (struct `RootNodeBuilder` in
`src/node/node.rs`). -/
structure RootNodeBuilder where
  items : List NodeItem
  num_visited : Nat

/-- Embedding of `RootNodeBuilder::new` (src/node/node.rs lines 72-77): no
items and a visit counter of 0. -/
def RootNodeBuilder.new : RootNodeBuilder :=
  { items := []
    num_visited := 0 }

/-- Embedding of `RootNodeBuilder::build`. -/
def RootNodeBuilder.build (b : RootNodeBuilder) : RootNode :=
  { items := b.items
    num_visited := b.num_visited }

/-- Embedding of `RootNodeBuilder::add_item`: push one item. -/
def RootNodeBuilder.add_item (b : RootNodeBuilder) (item : NodeItem) :
    RootNodeBuilder :=
  { b with items := b.items ++ [item] }

/-- Embedding of `RootNodeBuilder::add_line`. -/
def RootNodeBuilder.add_line (b : RootNodeBuilder) (line : Line) :
    RootNodeBuilder :=
  b.add_item (.line line)

/-- Embedding of `RootNodeBuilder::add_branching_choice`. -/
def RootNodeBuilder.add_branching_choice (b : RootNodeBuilder)
    (branching_set : List Branch) : RootNodeBuilder :=
  b.add_item (.branchingChoice branching_set)

/-- Builder for a `Branch` (struct `BranchBuilder` in `src/node/node.rs`). -/
structure BranchBuilder where
  choice : ChoiceData
  items : List NodeItem
  num_visited : Nat

/-- Embedding of `BranchBuilder::from_choice` (src/node/node.rs lines
124-132): the line of the choice becomes the first item, and the visit
counter starts at 0. -/
def BranchBuilder.from_choice (choice : ChoiceData) : BranchBuilder :=
  let line := (LineBuilder.new.with_line choice.line).build
  { choice := choice
    items := [NodeItem.line line]
    num_visited := 0 }

/-- Embedding of `BranchBuilder::add_item`: push one item. -/
def BranchBuilder.add_item (b : BranchBuilder) (item : NodeItem) :
    BranchBuilder :=
  { b with items := b.items ++ [item] }

/-- Embedding of `BranchBuilder::add_line`. -/
def BranchBuilder.add_line (b : BranchBuilder) (line : Line) : BranchBuilder :=
  b.add_item (.line line)

/-- Embedding of `BranchBuilder::add_branching_choice`. -/
def BranchBuilder.add_branching_choice (b : BranchBuilder)
    (branching_set : List Branch) : BranchBuilder :=
  b.add_item (.branchingChoice branching_set)

/-- Embedding of `BranchBuilder::build`. -/
def BranchBuilder.build (b : BranchBuilder) : Branch :=
  .mk b.choice b.items b.num_visited

/-- Name view used by the concrete validation examples: one knot `root` with
only its default stitch, and one global variable `variable`. -/
def demoData : ValidateAddressData :=
  { knots := [("root", [rootStitchName])]
    variable_names := ["variable"] }

/-- Current location used by the concrete validation examples: the default
stitch of the knot `root`. -/
def demoCurrent : Address :=
  .validated (.location "root" rootStitchName)

/-- Source metadata used by the concrete validation examples. -/
def demoMeta : MetaData :=
  { line_index := 7 }

/-- A chunk holding one unknown divert and one unknown variable reference,
the shape of scenario S6 of the spec. -/
def twoBadAddressesChunk : LineChunk :=
  .mk none
    [.divert (.raw "unknown_knot"), .expression (.reference (.raw "unknown_var"))]
    []

/-- A chunk whose condition is present and whose else-items hold a divert to
an unresolvable raw address. -/
def rawInElseItemsChunk : LineChunk :=
  .mk (some .alwaysTrue) [.text "so it goes"] [.divert (.raw "nowhere")]

/-- A chunk whose condition holds an unresolvable raw address. -/
def rawInConditionChunk : LineChunk :=
  .mk (some (.variableCmp (.raw "unknown_cond") .equalTo (.int 0)))
    [.text "body"] []

/-- A chunk with an unresolvable raw address nested deep in its items: inside
an expression, inside a sub-chunk of an alternative, inside a nested chunk. -/
def rawDeepInItemsChunk : LineChunk :=
  .mk none
    [.nested (.mk none
      [.alternative (.mk .sequence none
        [.mk none [.expression (.reference (.raw "unknown_deep"))] []])]
      [])]
    []

/-- Claim-side extraction for the text accessor: the string of a
`Content::Text` item, and nothing for every other content variant. -/
def Content.directText : Content → Option String
  | .text s => some s
  | _ => none

theorem countFailing_nil (cur : Address) (data : ValidateAddressData) :
    countFailing [] cur data = 0 := rfl

theorem countFailing_append (l1 l2 : List Address) (cur : Address)
    (data : ValidateAddressData) :
    countFailing (l1 ++ l2) cur data
      = countFailing l1 cur data + countFailing l2 cur data := by
  simp [countFailing, List.countP_append]

theorem address_validate_append (a : Address) (errs : List InvalidAddressError)
    (md : MetaData) (cur : Address) (data : ValidateAddressData) :
    (a.validate errs md cur data).2 = errs ++ (a.validate [] md cur data).2 := by
  cases a with
  | raw target =>
      simp only [Address.validate]
      cases resolveRawTarget target (getCurrentKnot cur) data <;> simp
  | validated kind => simp [Address.validate]

theorem address_validate_length (a : Address) (md : MetaData) (cur : Address)
    (data : ValidateAddressData) :
    ((a.validate [] md cur data).2).length = countFailing [a] cur data := by
  cases a with
  | raw target =>
      simp only [Address.validate, countFailing, Address.fails, List.countP]
      cases h : resolveRawTarget target (getCurrentKnot cur) data <;>
        simp [h, List.countP.go, Option.isNone]
  | validated kind => simp [Address.validate, countFailing, Address.fails, List.countP, List.countP.go]

theorem address_validate_meta (a : Address) (md : MetaData) (cur : Address)
    (data : ValidateAddressData) :
    ((a.validate [] md cur data).2).all (fun e => e.meta_data == md) = true := by
  cases a with
  | raw target =>
      simp only [Address.validate]
      cases resolveRawTarget target (getCurrentKnot cur) data <;> simp
  | validated kind => simp [Address.validate]

theorem variable_validate_append (v : Variable) (errs : List InvalidAddressError)
    (md : MetaData) (cur : Address) (data : ValidateAddressData) :
    (v.validate errs md cur data).2 = errs ++ (v.validate [] md cur data).2 := by
  cases v with
  | divert address =>
      simp only [Variable.validate]
      exact address_validate_append address errs md cur data
  | int value => simp [Variable.validate]
  | float bits => simp [Variable.validate]
  | string content => simp [Variable.validate]
  | bool value => simp [Variable.validate]

theorem variable_validate_length (v : Variable) (md : MetaData) (cur : Address)
    (data : ValidateAddressData) :
    ((v.validate [] md cur data).2).length = countFailing v.addresses cur data := by
  cases v with
  | divert address =>
      simp only [Variable.validate, Variable.addresses]
      exact address_validate_length address md cur data
  | int value => simp [Variable.validate, Variable.addresses, countFailing]
  | float bits => simp [Variable.validate, Variable.addresses, countFailing]
  | string content => simp [Variable.validate, Variable.addresses, countFailing]
  | bool value => simp [Variable.validate, Variable.addresses, countFailing]

theorem variable_validate_meta (v : Variable) (md : MetaData) (cur : Address)
    (data : ValidateAddressData) :
    ((v.validate [] md cur data).2).all (fun e => e.meta_data == md) = true := by
  cases v with
  | divert address =>
      simp only [Variable.validate]
      exact address_validate_meta address md cur data
  | int value => simp [Variable.validate]
  | float bits => simp [Variable.validate]
  | string content => simp [Variable.validate]
  | bool value => simp [Variable.validate]

theorem condition_validate_append : ∀ (c : Condition) (errs : List InvalidAddressError)
    (md : MetaData) (cur : Address) (data : ValidateAddressData),
    (c.validate errs md cur data).2 = errs ++ (c.validate [] md cur data).2
  | .numVisits address cmp value, errs, md, cur, data => by
      simp only [Condition.validate]
      exact address_validate_append address errs md cur data
  | .variableCmp address cmp value, errs, md, cur, data => by
      simp only [Condition.validate]
      rw [variable_validate_append value (address.validate errs md cur data).2,
        address_validate_append address errs,
        variable_validate_append value (address.validate [] md cur data).2]
      simp
  | .alwaysTrue, errs, md, cur, data => by simp [Condition.validate]
  | .and lhs rhs, errs, md, cur, data => by
      simp only [Condition.validate]
      rw [condition_validate_append rhs (lhs.validate errs md cur data).2,
        condition_validate_append lhs errs,
        condition_validate_append rhs (lhs.validate [] md cur data).2]
      simp
  | .or lhs rhs, errs, md, cur, data => by
      simp only [Condition.validate]
      rw [condition_validate_append rhs (lhs.validate errs md cur data).2,
        condition_validate_append lhs errs,
        condition_validate_append rhs (lhs.validate [] md cur data).2]
      simp
  | .negated inner, errs, md, cur, data => by
      simp only [Condition.validate]
      exact condition_validate_append inner errs md cur data

theorem condition_validate_length : ∀ (c : Condition) (md : MetaData)
    (cur : Address) (data : ValidateAddressData),
    ((c.validate [] md cur data).2).length = countFailing c.addresses cur data
  | .numVisits address cmp value, md, cur, data => by
      simp only [Condition.validate, Condition.addresses]
      exact address_validate_length address md cur data
  | .variableCmp address cmp value, md, cur, data => by
      simp only [Condition.validate, Condition.addresses]
      rw [variable_validate_append value (address.validate [] md cur data).2]
      have : (address :: value.addresses) = [address] ++ value.addresses := rfl
      rw [this, countFailing_append]
      simp [address_validate_length address md cur data,
        variable_validate_length value md cur data]
  | .alwaysTrue, md, cur, data => by
      simp [Condition.validate, Condition.addresses, countFailing]
  | .and lhs rhs, md, cur, data => by
      simp only [Condition.validate, Condition.addresses]
      rw [condition_validate_append rhs (lhs.validate [] md cur data).2,
        countFailing_append]
      simp [condition_validate_length lhs md cur data,
        condition_validate_length rhs md cur data]
  | .or lhs rhs, md, cur, data => by
      simp only [Condition.validate, Condition.addresses]
      rw [condition_validate_append rhs (lhs.validate [] md cur data).2,
        countFailing_append]
      simp [condition_validate_length lhs md cur data,
        condition_validate_length rhs md cur data]
  | .negated inner, md, cur, data => by
      simp only [Condition.validate, Condition.addresses]
      exact condition_validate_length inner md cur data

theorem condition_validate_meta : ∀ (c : Condition) (md : MetaData)
    (cur : Address) (data : ValidateAddressData),
    ((c.validate [] md cur data).2).all (fun e => e.meta_data == md) = true
  | .numVisits address cmp value, md, cur, data => by
      simp only [Condition.validate]
      exact address_validate_meta address md cur data
  | .variableCmp address cmp value, md, cur, data => by
      simp only [Condition.validate]
      rw [variable_validate_append value (address.validate [] md cur data).2]
      simp only [List.all_append]
      rw [address_validate_meta address md cur data,
        variable_validate_meta value md cur data]
      rfl
  | .alwaysTrue, md, cur, data => by simp [Condition.validate]
  | .and lhs rhs, md, cur, data => by
      simp only [Condition.validate]
      rw [condition_validate_append rhs (lhs.validate [] md cur data).2]
      simp only [List.all_append]
      rw [condition_validate_meta lhs md cur data,
        condition_validate_meta rhs md cur data]
      rfl
  | .or lhs rhs, md, cur, data => by
      simp only [Condition.validate]
      rw [condition_validate_append rhs (lhs.validate [] md cur data).2]
      simp only [List.all_append]
      rw [condition_validate_meta lhs md cur data,
        condition_validate_meta rhs md cur data]
      rfl
  | .negated inner, md, cur, data => by
      simp only [Condition.validate]
      exact condition_validate_meta inner md cur data

theorem expression_validate_append : ∀ (x : Expression) (errs : List InvalidAddressError)
    (md : MetaData) (cur : Address) (data : ValidateAddressData),
    (x.validate errs md cur data).2 = errs ++ (x.validate [] md cur data).2
  | .literal value, errs, md, cur, data => by
      simp only [Expression.validate]
      exact variable_validate_append value errs md cur data
  | .reference address, errs, md, cur, data => by
      simp only [Expression.validate]
      exact address_validate_append address errs md cur data
  | .numVisits address, errs, md, cur, data => by
      simp only [Expression.validate]
      exact address_validate_append address errs md cur data
  | .arith op lhs rhs, errs, md, cur, data => by
      simp only [Expression.validate]
      rw [expression_validate_append rhs (lhs.validate errs md cur data).2,
        expression_validate_append lhs errs,
        expression_validate_append rhs (lhs.validate [] md cur data).2]
      simp

theorem expression_validate_length : ∀ (x : Expression) (md : MetaData)
    (cur : Address) (data : ValidateAddressData),
    ((x.validate [] md cur data).2).length = countFailing x.addresses cur data
  | .literal value, md, cur, data => by
      simp only [Expression.validate, Expression.addresses]
      exact variable_validate_length value md cur data
  | .reference address, md, cur, data => by
      simp only [Expression.validate, Expression.addresses]
      exact address_validate_length address md cur data
  | .numVisits address, md, cur, data => by
      simp only [Expression.validate, Expression.addresses]
      exact address_validate_length address md cur data
  | .arith op lhs rhs, md, cur, data => by
      simp only [Expression.validate, Expression.addresses]
      rw [expression_validate_append rhs (lhs.validate [] md cur data).2,
        countFailing_append]
      simp [expression_validate_length lhs md cur data,
        expression_validate_length rhs md cur data]

theorem expression_validate_meta : ∀ (x : Expression) (md : MetaData)
    (cur : Address) (data : ValidateAddressData),
    ((x.validate [] md cur data).2).all (fun e => e.meta_data == md) = true
  | .literal value, md, cur, data => by
      simp only [Expression.validate]
      exact variable_validate_meta value md cur data
  | .reference address, md, cur, data => by
      simp only [Expression.validate]
      exact address_validate_meta address md cur data
  | .numVisits address, md, cur, data => by
      simp only [Expression.validate]
      exact address_validate_meta address md cur data
  | .arith op lhs rhs, md, cur, data => by
      simp only [Expression.validate]
      rw [expression_validate_append rhs (lhs.validate [] md cur data).2]
      simp only [List.all_append]
      rw [expression_validate_meta lhs md cur data,
        expression_validate_meta rhs md cur data]
      rfl

mutual

theorem content_validate_append : ∀ (c : Content) (errs : List InvalidAddressError)
    (md : MetaData) (cur : Address) (data : ValidateAddressData),
    (Content.validate c errs md cur data).2
      = errs ++ (Content.validate c [] md cur data).2
  | .alternative alt, errs, md, cur, data => by
      simp only [Content.validate]
      exact alternative_validate_append alt errs md cur data
  | .divert address, errs, md, cur, data => by
      simp only [Content.validate]
      exact address_validate_append address errs md cur data
  | .empty, errs, md, cur, data => by simp [Content.validate]
  | .expression expr, errs, md, cur, data => by
      simp only [Content.validate]
      exact expression_validate_append expr errs md cur data
  | .nested chunk, errs, md, cur, data => by
      simp only [Content.validate]
      exact chunk_validate_append chunk errs md cur data
  | .text str, errs, md, cur, data => by simp [Content.validate]

theorem validateContentItems_append : ∀ (items : List Content)
    (errs : List InvalidAddressError) (md : MetaData) (cur : Address)
    (data : ValidateAddressData),
    (validateContentItems items errs md cur data).2
      = errs ++ (validateContentItems items [] md cur data).2
  | [], errs, md, cur, data => by simp [validateContentItems]
  | item :: rest, errs, md, cur, data => by
      simp only [validateContentItems]
      rw [validateContentItems_append rest (Content.validate item errs md cur data).2,
        content_validate_append item errs,
        validateContentItems_append rest (Content.validate item [] md cur data).2]
      simp

theorem chunk_validate_append : ∀ (chunk : LineChunk)
    (errs : List InvalidAddressError) (md : MetaData) (cur : Address)
    (data : ValidateAddressData),
    (LineChunk.validate chunk errs md cur data).2
      = errs ++ (LineChunk.validate chunk [] md cur data).2
  | .mk none items else_items, errs, md, cur, data => by
      simp only [LineChunk.validate]
      exact validateContentItems_append items errs md cur data
  | .mk (some c) items else_items, errs, md, cur, data => by
      simp only [LineChunk.validate]
      rw [validateContentItems_append items (Condition.validate c errs md cur data).2,
        condition_validate_append c errs,
        validateContentItems_append items (Condition.validate c [] md cur data).2]
      simp

theorem validateChunkItems_append : ∀ (chunks : List LineChunk)
    (errs : List InvalidAddressError) (md : MetaData) (cur : Address)
    (data : ValidateAddressData),
    (validateChunkItems chunks errs md cur data).2
      = errs ++ (validateChunkItems chunks [] md cur data).2
  | [], errs, md, cur, data => by simp [validateChunkItems]
  | chunk :: rest, errs, md, cur, data => by
      simp only [validateChunkItems]
      rw [validateChunkItems_append rest (LineChunk.validate chunk errs md cur data).2,
        chunk_validate_append chunk errs,
        validateChunkItems_append rest (LineChunk.validate chunk [] md cur data).2]
      simp

theorem alternative_validate_append : ∀ (alt : Alternative)
    (errs : List InvalidAddressError) (md : MetaData) (cur : Address)
    (data : ValidateAddressData),
    (Alternative.validate alt errs md cur data).2
      = errs ++ (Alternative.validate alt [] md cur data).2
  | .mk kind current_index items, errs, md, cur, data => by
      simp only [Alternative.validate]
      exact validateChunkItems_append items errs md cur data

end

mutual

theorem content_validate_length : ∀ (c : Content) (md : MetaData) (cur : Address)
    (data : ValidateAddressData),
    ((Content.validate c [] md cur data).2).length
      = countFailing (Content.visitedAddresses c) cur data
  | .alternative alt, md, cur, data => by
      simp only [Content.validate, Content.visitedAddresses]
      exact alternative_validate_length alt md cur data
  | .divert address, md, cur, data => by
      simp only [Content.validate, Content.visitedAddresses]
      exact address_validate_length address md cur data
  | .empty, md, cur, data => by
      simp [Content.validate, Content.visitedAddresses, countFailing]
  | .expression expr, md, cur, data => by
      simp only [Content.validate, Content.visitedAddresses]
      exact expression_validate_length expr md cur data
  | .nested chunk, md, cur, data => by
      simp only [Content.validate, Content.visitedAddresses]
      exact chunk_validate_length chunk md cur data
  | .text str, md, cur, data => by
      simp [Content.validate, Content.visitedAddresses, countFailing]

theorem validateContentItems_length : ∀ (items : List Content) (md : MetaData)
    (cur : Address) (data : ValidateAddressData),
    ((validateContentItems items [] md cur data).2).length
      = countFailing (contentItemsVisitedAddresses items) cur data
  | [], md, cur, data => by
      simp [validateContentItems, contentItemsVisitedAddresses, countFailing]
  | item :: rest, md, cur, data => by
      simp only [validateContentItems, contentItemsVisitedAddresses]
      rw [validateContentItems_append rest (Content.validate item [] md cur data).2,
        countFailing_append]
      simp [content_validate_length item md cur data,
        validateContentItems_length rest md cur data]

theorem chunk_validate_length : ∀ (chunk : LineChunk) (md : MetaData)
    (cur : Address) (data : ValidateAddressData),
    ((LineChunk.validate chunk [] md cur data).2).length
      = countFailing (LineChunk.visitedAddresses chunk) cur data
  | .mk none items else_items, md, cur, data => by
      simp only [LineChunk.validate, LineChunk.visitedAddresses, conditionAddresses]
      rw [List.nil_append]
      exact validateContentItems_length items md cur data
  | .mk (some c) items else_items, md, cur, data => by
      simp only [LineChunk.validate, LineChunk.visitedAddresses, conditionAddresses]
      rw [validateContentItems_append items (Condition.validate c [] md cur data).2,
        countFailing_append]
      simp [condition_validate_length c md cur data,
        validateContentItems_length items md cur data]

theorem validateChunkItems_length : ∀ (chunks : List LineChunk) (md : MetaData)
    (cur : Address) (data : ValidateAddressData),
    ((validateChunkItems chunks [] md cur data).2).length
      = countFailing (chunkItemsVisitedAddresses chunks) cur data
  | [], md, cur, data => by
      simp [validateChunkItems, chunkItemsVisitedAddresses, countFailing]
  | chunk :: rest, md, cur, data => by
      simp only [validateChunkItems, chunkItemsVisitedAddresses]
      rw [validateChunkItems_append rest (LineChunk.validate chunk [] md cur data).2,
        countFailing_append]
      simp [chunk_validate_length chunk md cur data,
        validateChunkItems_length rest md cur data]

theorem alternative_validate_length : ∀ (alt : Alternative) (md : MetaData)
    (cur : Address) (data : ValidateAddressData),
    ((Alternative.validate alt [] md cur data).2).length
      = countFailing (Alternative.visitedAddresses alt) cur data
  | .mk kind current_index items, md, cur, data => by
      simp only [Alternative.validate, Alternative.visitedAddresses]
      exact validateChunkItems_length items md cur data

end

mutual

theorem content_validate_meta : ∀ (c : Content) (md : MetaData) (cur : Address)
    (data : ValidateAddressData),
    ((Content.validate c [] md cur data).2).all (fun e => e.meta_data == md) = true
  | .alternative alt, md, cur, data => by
      simp only [Content.validate]
      exact alternative_validate_meta alt md cur data
  | .divert address, md, cur, data => by
      simp only [Content.validate]
      exact address_validate_meta address md cur data
  | .empty, md, cur, data => by simp [Content.validate]
  | .expression expr, md, cur, data => by
      simp only [Content.validate]
      exact expression_validate_meta expr md cur data
  | .nested chunk, md, cur, data => by
      simp only [Content.validate]
      exact chunk_validate_meta chunk md cur data
  | .text str, md, cur, data => by simp [Content.validate]

theorem validateContentItems_meta : ∀ (items : List Content) (md : MetaData)
    (cur : Address) (data : ValidateAddressData),
    ((validateContentItems items [] md cur data).2).all
      (fun e => e.meta_data == md) = true
  | [], md, cur, data => by simp [validateContentItems]
  | item :: rest, md, cur, data => by
      simp only [validateContentItems]
      rw [validateContentItems_append rest (Content.validate item [] md cur data).2]
      simp only [List.all_append]
      rw [content_validate_meta item md cur data,
        validateContentItems_meta rest md cur data]
      rfl

theorem chunk_validate_meta : ∀ (chunk : LineChunk) (md : MetaData)
    (cur : Address) (data : ValidateAddressData),
    ((LineChunk.validate chunk [] md cur data).2).all
      (fun e => e.meta_data == md) = true
  | .mk none items else_items, md, cur, data => by
      simp only [LineChunk.validate]
      exact validateContentItems_meta items md cur data
  | .mk (some c) items else_items, md, cur, data => by
      simp only [LineChunk.validate]
      rw [validateContentItems_append items (Condition.validate c [] md cur data).2]
      simp only [List.all_append]
      rw [condition_validate_meta c md cur data,
        validateContentItems_meta items md cur data]
      rfl

theorem validateChunkItems_meta : ∀ (chunks : List LineChunk) (md : MetaData)
    (cur : Address) (data : ValidateAddressData),
    ((validateChunkItems chunks [] md cur data).2).all
      (fun e => e.meta_data == md) = true
  | [], md, cur, data => by simp [validateChunkItems]
  | chunk :: rest, md, cur, data => by
      simp only [validateChunkItems]
      rw [validateChunkItems_append rest (LineChunk.validate chunk [] md cur data).2]
      simp only [List.all_append]
      rw [chunk_validate_meta chunk md cur data,
        validateChunkItems_meta rest md cur data]
      rfl

theorem alternative_validate_meta : ∀ (alt : Alternative) (md : MetaData)
    (cur : Address) (data : ValidateAddressData),
    ((Alternative.validate alt [] md cur data).2).all
      (fun e => e.meta_data == md) = true
  | .mk kind current_index items, md, cur, data => by
      simp only [Alternative.validate]
      exact validateChunkItems_meta items md cur data

end

theorem string_join_cons (s : String) (l : List String) :
    String.join (s :: l) = s ++ String.join l := by
  apply String.ext
  simp [String.join_eq]

theorem text_foldl_eq : ∀ (items : List Content) (buffer : String),
    items.foldl
      (fun buffer item =>
        match item with
        | Content.text s => buffer ++ s
        | _ => buffer)
      buffer
      = buffer ++ String.join (items.filterMap Content.directText)
  | [], buffer => by simp [String.join]
  | item :: rest, buffer => by
      cases item <;>
        simp [text_foldl_eq rest, Content.directText, string_join_cons,
          String.append_assoc]

theorem rootBuilderFold_num_visited : ∀ (ops : List NodeItem) (b : RootNodeBuilder),
    (ops.foldl RootNodeBuilder.add_item b).num_visited = b.num_visited
  | [], _ => rfl
  | op :: rest, b => by
      simp only [List.foldl]
      rw [rootBuilderFold_num_visited rest]
      rfl

theorem branchBuilderFold_num_visited : ∀ (ops : List NodeItem) (b : BranchBuilder),
    (ops.foldl BranchBuilder.add_item b).num_visited = b.num_visited
  | [], _ => rfl
  | op :: rest, b => by
      simp only [List.foldl]
      rw [branchBuilderFold_num_visited rest]
      rfl

/-- C1: the claim states that after a validation pass that accumulates no
errors every address in the line content has been rewritten to a `Validated`
variant, so the `UseOfUnvalidatedAddress` branch is unreachable. The code
refutes it: validating `rawInElseItemsChunk` reports no error, yet the
unresolvable raw divert in its else-items survives the pass, and the
location fetch on that surviving address is exactly the
`UseOfUnvalidatedAddress` branch. -/
theorem validation_leaves_raw_address_in_else_items :
    (LineChunk.validate rawInElseItemsChunk [] demoMeta demoCurrent demoData).2 = []
      ∧ Address.fails (.raw "nowhere") demoCurrent demoData = true
      ∧ (LineChunk.validate rawInElseItemsChunk [] demoMeta demoCurrent demoData).1.else_items
          = [.divert (.raw "nowhere")]
      ∧ LineChunk.noRaw
          (LineChunk.validate rawInElseItemsChunk [] demoMeta demoCurrent demoData).1 = false
      ∧ Address.getLocation (.raw "nowhere")
          = .error (.useOfUnvalidatedAddress (.raw "nowhere")) :=
  ⟨by decide, by decide, rfl, by decide, rfl⟩

/-- C2: the validation pass never aborts early; it appends exactly one
`InvalidAddressError` per failing address it encounters, on top of whatever
the accumulator already holds. In particular a chunk with one unknown divert
and one unknown variable reference yields two error entries. -/
theorem validation_reports_one_error_per_failing_address :
    (∀ (chunk : LineChunk) (errors : List InvalidAddressError) (md : MetaData)
        (cur : Address) (data : ValidateAddressData),
      ((LineChunk.validate chunk errors md cur data).2).length
        = errors.length + countFailing (LineChunk.visitedAddresses chunk) cur data)
    ∧ (LineChunk.validate twoBadAddressesChunk [] demoMeta demoCurrent demoData).2
        = [{ kind := .unknownAddress "unknown_knot", meta_data := demoMeta },
           { kind := .unknownAddress "unknown_var", meta_data := demoMeta }] := by
  constructor
  · intro chunk errors md cur data
    rw [chunk_validate_append, List.length_append, chunk_validate_length]
  · decide

/-- C3: the claim states that chunk validation descends into the condition,
every item of `items` and every item of `else_items`. The code descends into
the condition (first conjunct) and recursively into items — through nested
chunks, alternatives and expressions (second conjunct) — but never into
`else_items`: an unresolvable raw address there (third conjunct) produces no
error entry at all (fourth conjunct). -/
theorem validation_skips_else_items :
    ((LineChunk.validate rawInConditionChunk [] demoMeta demoCurrent demoData).2).length = 1
    ∧ ((LineChunk.validate rawDeepInItemsChunk [] demoMeta demoCurrent demoData).2).length = 1
    ∧ Address.fails (.raw "unknown_else") demoCurrent demoData = true
    ∧ ((LineChunk.validate
          (.mk (some .alwaysTrue) [.text "ok"] [.divert (.raw "unknown_else")])
          [] demoMeta demoCurrent demoData).2).length = 0 :=
  ⟨by decide, by decide, by decide, by decide⟩

/-- C4: `InternalLine::validate` ignores the metadata supplied by its caller
and forwards its own `meta_data` to the chunk validation, so every error it
appends carries the line's own source-line metadata. -/
theorem internal_line_validate_forwards_own_meta_data :
    ∀ (line : InternalLine) (errors : List InvalidAddressError)
      (md md2 : MetaData) (cur : Address) (data : ValidateAddressData),
      InternalLine.validate line errors md cur data
          = InternalLine.validate line errors md2 cur data
      ∧ (((InternalLine.validate line errors md cur data).2).drop errors.length).all
          (fun e => e.meta_data == line.meta_data) = true := by
  intro line errors md md2 cur data
  refine ⟨rfl, ?_⟩
  simp only [InternalLine.validate]
  rw [chunk_validate_append, List.drop_left]
  exact chunk_validate_meta line.chunk line.meta_data cur data

/-- C5: each logically-unreachable engine-bug condition — empty stack,
expected branching point, missing branch index, out-of-bounds stack index,
use of an unvalidated raw address, out-of-bounds alternative index — has its
own distinct variant of `InternalError`, a type separate from the user-facing
`InklingError`, so a host can tell engine bugs from content errors. -/
theorem internal_error_distinct_variants :
    engineBugConditions.Pairwise (fun a b => ¬ a = b)
    ∧ (∀ e : InklingError, isEngineBug (.inl e) = false)
    ∧ (∀ e : InternalError, isEngineBug (.inr e) = true) :=
  ⟨by decide, fun _ => rfl, fun _ => rfl⟩

/-- C6: every chunk built by `LineChunkBuilder::build` has at least one item
(`Content::Empty` is pushed when none was added), no condition and an empty
else-items sequence. -/
theorem line_chunk_builder_build_invariants :
    ∀ b : LineChunkBuilder,
      0 < (b.build).items.length
      ∧ (b.build).condition = none
      ∧ (b.build).else_items = [] := by
  intro b
  refine ⟨?_, ?_, ?_⟩
  · cases hb : b.items <;>
      simp [LineChunkBuilder.build, LineChunk.items, hb]
  · cases hb : b.items <;>
      simp [LineChunkBuilder.build, LineChunk.condition, hb]
  · cases hb : b.items <;>
      simp [LineChunkBuilder.build, LineChunk.else_items, hb]

/-- C7: every freshly constructed node starts unvisited: after any sequence
of item additions, a root node built from `RootNodeBuilder::new` and a branch
built from `BranchBuilder::from_choice` both carry a visit counter of 0. -/
theorem node_builders_start_unvisited :
    ∀ (ops : List NodeItem) (choice : ChoiceData),
      ((ops.foldl RootNodeBuilder.add_item RootNodeBuilder.new).build).num_visited = 0
      ∧ ((ops.foldl BranchBuilder.add_item (BranchBuilder.from_choice choice)).build).num_visited = 0 := by
  intro ops choice
  constructor
  · show (ops.foldl RootNodeBuilder.add_item RootNodeBuilder.new).num_visited = 0
    rw [rootBuilderFold_num_visited]
    rfl
  · show (ops.foldl BranchBuilder.add_item (BranchBuilder.from_choice choice)).num_visited = 0
    rw [branchBuilderFold_num_visited]
    rfl

/-- C8: `InternalChoiceBuilder::from_line` initializes both `is_sticky` and
`is_fallback` to false for every input line, and `build` copies both flags
from the builder unchanged. -/
theorem internal_choice_default_flags :
    ∀ (line : InternalLine) (b : InternalChoiceBuilder),
      ((InternalChoiceBuilder.from_line line).is_sticky = false
        ∧ (InternalChoiceBuilder.from_line line).is_fallback = false)
      ∧ ((b.build).is_sticky = b.is_sticky
        ∧ (b.build).is_fallback = b.is_fallback) :=
  fun _ _ => ⟨⟨rfl, rfl⟩, rfl, rfl⟩

/-- C9: the text accessor of an internal line returns the in-order
concatenation of exactly the strings of the `Content::Text` items directly in
its chunk's items; every other variant, nested text included, contributes
nothing. -/
theorem internal_line_text_is_direct_text_concat :
    ∀ line : InternalLine,
      line.text = String.join (line.chunk.items.filterMap Content.directText) := by
  intro line
  show line.chunk.items.foldl _ "" = _
  rw [text_foldl_eq]
  apply String.ext
  simp

/-- C10: when a tag list has been set on an `InternalChoiceBuilder`, `build`
writes it into the tags of both the selection text and the display text; when
no tags were set, both lines keep their own tags. -/
theorem internal_choice_builder_tags :
    ∀ (b : InternalChoiceBuilder) (ts : List String),
      (b.tags = some ts →
        (b.build).selection_text.tags = ts ∧ (b.build).display_text.tags = ts)
      ∧ (b.tags = none →
        (b.build).selection_text.tags = b.selection_text.tags
          ∧ (b.build).display_text.tags = b.display_text.tags) := by
  intro b ts
  constructor
  · intro h
    simp [InternalChoiceBuilder.build, h]
  · intro h
    simp [InternalChoiceBuilder.build, h]

/-- C10 witness: the theorem applied to one builder whose tags were set by
`with_tags` and one builder fresh from `from_line`. -/
theorem internal_choice_builder_tags_witness :
    ((((InternalChoiceBuilder.from_line (InternalLine.from_string "choice")).with_tags
        ["t"]).build).selection_text.tags = ["t"]
      ∧ ((((InternalChoiceBuilder.from_line (InternalLine.from_string "choice")).with_tags
        ["t"]).build).display_text.tags = ["t"]))
    ∧ (((InternalChoiceBuilder.from_line (InternalLine.from_string "choice")).build).selection_text.tags
        = (InternalChoiceBuilder.from_line (InternalLine.from_string "choice")).selection_text.tags
      ∧ ((InternalChoiceBuilder.from_line (InternalLine.from_string "choice")).build).display_text.tags
        = (InternalChoiceBuilder.from_line (InternalLine.from_string "choice")).display_text.tags) :=
  ⟨(internal_choice_builder_tags
      ((InternalChoiceBuilder.from_line (InternalLine.from_string "choice")).with_tags ["t"])
      ["t"]).1 rfl,
   (internal_choice_builder_tags
      (InternalChoiceBuilder.from_line (InternalLine.from_string "choice"))
      ["t"]).2 rfl⟩

end Inkling
